import Mathlib

/-!
Verification of the amortization schedule engine of the calculator
repository.  The only non-trivial algorithm is `computeSchedule`
(src/src/calculator/calculator.tsx, lines 18-47): it simulates
month-by-month debt reduction given a principal, an annual interest rate
and a list of planned monthly payments.  Numbers are modelled as
rationals; the JavaScript loop becomes structural recursion over the
payments list carrying the mutable state (debt, totalInterest,
payoffMonth) as explicit arguments.
-/

/-- Per-month ledger row, mirroring the `Row` type of the source
(calculator.tsx lines 4-11). -/
structure Row where
  month : Nat
  startDebt : ℚ
  interest : ℚ
  paymentPlanned : ℚ
  paymentApplied : ℚ
  endDebt : ℚ
deriving Repr, DecidableEq, Inhabited

/-- The record returned by `computeSchedule` (calculator.tsx lines 18-23):
the row list, the accumulated interest, the first month the debt hit zero
(if any) and the debt left after the last simulated month. -/
structure ScheduleResult where
  schedule : List Row
  totalInterest : ℚ
  payoffMonth : Option Nat
  remainingDebt : ℚ
deriving Repr, DecidableEq, Inhabited

/-- The clamp of line 37 of the source:
`const paymentPlanned = payments[i] > 0 ? payments[i] : 0`. -/
def plannedPayment (p : ℚ) : ℚ :=
  if p > 0 then p else 0

/-- The conditional assignment of line 43 of the source:
`if (debt === 0 && payoffMonth === null) payoffMonth = month`. -/
def updatePayoff (endDebt : ℚ) (month : Nat) (pm : Option Nat) :
    Option Nat :=
  if endDebt = 0 ∧ pm = none then some month else pm

/-- The loop of `computeSchedule` (calculator.tsx lines 30-44) as
structural recursion over the remaining payments.  `month` is the 1-based
counter `i + 1`; `debt`, `totalInterest` and `payoffMonth` are the
mutable locals of the source.  The `debt ≤ 0` branch is the `break`
statement: it abandons the rest of the list and returns the accumulators
unchanged. -/
def computeScheduleAux (monthlyRate : ℚ) :
    List ℚ → Nat → ℚ → ℚ → Option Nat → ScheduleResult
  | [], _, debt, totalInterest, payoffMonth =>
      ⟨[], totalInterest, payoffMonth, debt⟩
  | p :: rest, month, debt, totalInterest, payoffMonth =>
      if debt ≤ 0 then ⟨[], totalInterest, payoffMonth, debt⟩
      else
        let startDebt := debt
        let interest := startDebt * monthlyRate
        let paymentPlanned := plannedPayment p
        let paymentApplied := min paymentPlanned startDebt
        let endDebt := max (startDebt - paymentApplied) 0
        let res := computeScheduleAux monthlyRate rest (month + 1) endDebt
          (totalInterest + interest) (updatePayoff endDebt month payoffMonth)
        ⟨⟨month, startDebt, interest, paymentPlanned, paymentApplied, endDebt⟩
            :: res.schedule,
          res.totalInterest, res.payoffMonth, res.remainingDebt⟩

/-- `computeSchedule` (calculator.tsx lines 18-47): derives
`monthlyRate = annualRate / 12` and runs the loop starting at month 1
with `debt = total`, `totalInterest = 0`, `payoffMonth = null`. -/
def computeSchedule (total annualRate : ℚ) (payments : List ℚ) :
    ScheduleResult :=
  computeScheduleAux (annualRate / 12) payments 1 total 0 none

/-- The debt trajectory links the rows: the first row starts at `d` and
every later row starts at the previous row's `endDebt`. -/
def chainFrom : ℚ → List Row → Prop
  | _, [] => True
  | d, row :: rest => row.startDebt = d ∧ chainFrom row.endDebt rest

/-- A row with its `interest` field blanked out, used to compare schedules
computed at different interest rates. -/
def eraseInterest (row : Row) : Row :=
  { row with interest := 0 }

theorem plannedPayment_nonneg (p : ℚ) : 0 ≤ plannedPayment p := by
  unfold plannedPayment
  split
  · exact le_of_lt (by assumption)
  · exact le_refl 0

theorem plannedPayment_of_neg (p : ℚ) (h : p < 0) : plannedPayment p = 0 := by
  unfold plannedPayment
  rw [if_neg (not_lt_of_lt h)]

theorem computeScheduleAux_stop (r : ℚ) (ps : List ℚ) (m : Nat) (d ti : ℚ)
    (pm : Option Nat) (h : d ≤ 0) :
    computeScheduleAux r ps m d ti pm = ⟨[], ti, pm, d⟩ := by
  cases ps with
  | nil => rfl
  | cons p rest => simp [computeScheduleAux, h]

theorem length_schedule_le (r : ℚ) (ps : List ℚ) (m : Nat) (d ti : ℚ)
    (pm : Option Nat) :
    (computeScheduleAux r ps m d ti pm).schedule.length ≤ ps.length := by
  induction ps generalizing m d ti pm with
  | nil => simp [computeScheduleAux]
  | cons p rest ih =>
    by_cases h : d ≤ 0
    · simp [computeScheduleAux, h]
    · simp only [computeScheduleAux, if_neg h, List.length_cons]
      exact Nat.succ_le_succ (ih _ _ _ _)

theorem row_shape (r : ℚ) (ps : List ℚ) (m : Nat) (d ti : ℚ)
    (pm : Option Nat) :
    ∀ row ∈ (computeScheduleAux r ps m d ti pm).schedule,
      0 < row.startDebt ∧
      0 ≤ row.paymentPlanned ∧
      row.interest = row.startDebt * r ∧
      row.paymentApplied = min row.paymentPlanned row.startDebt ∧
      row.endDebt = max (row.startDebt - row.paymentApplied) 0 := by
  induction ps generalizing m d ti pm with
  | nil => simp [computeScheduleAux]
  | cons p rest ih =>
    by_cases h : d ≤ 0
    · simp [computeScheduleAux, h]
    · intro row hrow
      simp only [computeScheduleAux, if_neg h, List.mem_cons] at hrow
      rcases hrow with hrow | hrow
      · subst hrow
        exact ⟨lt_of_not_le h, plannedPayment_nonneg p, rfl, rfl, rfl⟩
      · exact ih _ _ _ _ row hrow

theorem chainFrom_schedule (r : ℚ) (ps : List ℚ) (m : Nat) (d ti : ℚ)
    (pm : Option Nat) :
    chainFrom d (computeScheduleAux r ps m d ti pm).schedule := by
  induction ps generalizing m d ti pm with
  | nil => simp [computeScheduleAux, chainFrom]
  | cons p rest ih =>
    by_cases h : d ≤ 0
    · simp [computeScheduleAux, h, chainFrom]
    · simp only [computeScheduleAux, if_neg h]
      exact ⟨rfl, ih _ _ _ _⟩

theorem chainFrom_head (d : ℚ) (l : List Row) (hc : chainFrom d l)
    (h0 : 0 < l.length) : (l.get ⟨0, h0⟩).startDebt = d := by
  cases l with
  | nil => simp at h0
  | cons row rest => exact hc.1

theorem chainFrom_step (d : ℚ) (l : List Row) (hc : chainFrom d l) :
    ∀ (i : Nat) (h : i + 1 < l.length),
      (l.get ⟨i + 1, h⟩).startDebt = (l.get ⟨i, Nat.lt_of_succ_lt h⟩).endDebt := by
  induction l generalizing d with
  | nil => intro i h; simp at h
  | cons row rest ih =>
    intro i h
    cases i with
    | zero =>
      have h1 : 0 < rest.length := Nat.lt_of_succ_lt_succ h
      cases rest with
      | nil => simp at h1
      | cons row2 rest2 => exact hc.2.1
    | succ j =>
      exact ih row.endDebt hc.2 j (Nat.lt_of_succ_lt_succ h)

theorem row_index_payment (r : ℚ) (ps : List ℚ) (m : Nat) (d ti : ℚ)
    (pm : Option Nat) :
    ∀ (i : Nat) (row : Row),
      (computeScheduleAux r ps m d ti pm).schedule[i]? = some row →
      ∃ v, ps[i]? = some v ∧ row.paymentPlanned = plannedPayment v := by
  induction ps generalizing m d ti pm with
  | nil => intro i row hrow; simp [computeScheduleAux] at hrow
  | cons p rest ih =>
    intro i row hrow
    by_cases h : d ≤ 0
    · simp [computeScheduleAux, h] at hrow
    · simp only [computeScheduleAux, if_neg h] at hrow
      cases i with
      | zero =>
        simp only [List.getElem?_cons_zero, Option.some.injEq] at hrow
        exact ⟨p, by simp, by rw [← hrow]⟩
      | succ j =>
        simp only [List.getElem?_cons_succ] at hrow ⊢
        exact ih _ _ _ _ j row hrow

theorem payoffMonth_of_zero_row (r : ℚ) (ps : List ℚ) (m : Nat) (d ti : ℚ) :
    ∀ row ∈ (computeScheduleAux r ps m d ti none).schedule,
      row.endDebt = 0 →
      (computeScheduleAux r ps m d ti none).payoffMonth = some row.month := by
  induction ps generalizing m d ti with
  | nil => simp [computeScheduleAux]
  | cons p rest ih =>
    intro row hrow hzero
    by_cases h : d ≤ 0
    · simp [computeScheduleAux, h] at hrow
    · simp only [computeScheduleAux, if_neg h] at hrow ⊢
      by_cases hend : max (d - min (plannedPayment p) d) 0 = 0
      · have hup : updatePayoff (max (d - min (plannedPayment p) d) 0) m none
            = some m := by
          unfold updatePayoff
          rw [if_pos ⟨hend, rfl⟩]
        rw [hup, computeScheduleAux_stop r rest (m + 1) _ _ _ (le_of_eq hend)]
          at hrow ⊢
        rcases List.mem_cons.mp hrow with h1 | h1
        · subst h1; rfl
        · exact absurd h1 (List.not_mem_nil row)
      · have hup : updatePayoff (max (d - min (plannedPayment p) d) 0) m none
            = none := by
          unfold updatePayoff
          rw [if_neg (fun hc => hend hc.1)]
        rw [hup] at hrow ⊢
        rcases List.mem_cons.mp hrow with h1 | h1
        · subst h1; exact absurd hzero hend
        · exact ih (m + 1) _ _ row h1 hzero

theorem rate_independent_aux (r1 r2 : ℚ) (ps : List ℚ) (m : Nat)
    (d ti1 ti2 : ℚ) (pm : Option Nat) :
    (computeScheduleAux r1 ps m d ti1 pm).schedule.map eraseInterest =
      (computeScheduleAux r2 ps m d ti2 pm).schedule.map eraseInterest ∧
    (computeScheduleAux r1 ps m d ti1 pm).payoffMonth =
      (computeScheduleAux r2 ps m d ti2 pm).payoffMonth ∧
    (computeScheduleAux r1 ps m d ti1 pm).remainingDebt =
      (computeScheduleAux r2 ps m d ti2 pm).remainingDebt := by
  induction ps generalizing m d ti1 ti2 pm with
  | nil => simp [computeScheduleAux]
  | cons p rest ih =>
    by_cases h : d ≤ 0
    · simp [computeScheduleAux, h]
    · simp only [computeScheduleAux, if_neg h, List.map_cons]
      obtain ⟨hs, hpm, hd⟩ := ih (m + 1)
        (max (d - min (plannedPayment p) d) 0) (ti1 + d * r1) (ti2 + d * r2)
        (updatePayoff (max (d - min (plannedPayment p) d) 0) m pm)
      exact ⟨by rw [hs]; rfl, hpm, hd⟩

theorem zeros_schedule (r : ℚ) (n m : Nat) (d ti : ℚ) (pm : Option Nat)
    (hd : 0 < d) :
    (computeScheduleAux r (List.replicate n 0) m d ti pm).remainingDebt = d ∧
    (computeScheduleAux r (List.replicate n 0) m d ti pm).payoffMonth = pm ∧
    (computeScheduleAux r (List.replicate n 0) m d ti pm).totalInterest =
      ti + d * r * n := by
  induction n generalizing m ti with
  | zero => simp [computeScheduleAux]
  | succ k ih =>
    have h : ¬ d ≤ 0 := not_le_of_lt hd
    have hplan : plannedPayment 0 = 0 := by unfold plannedPayment; simp
    have hmax : max (d - min (plannedPayment 0) d) 0 = d := by
      rw [hplan, min_eq_left (le_of_lt hd), sub_zero,
        max_eq_left (le_of_lt hd)]
    have hup : updatePayoff d m pm = pm := by
      unfold updatePayoff
      rw [if_neg (fun hc => absurd hc.1 (ne_of_gt hd))]
    simp only [List.replicate_succ, computeScheduleAux, if_neg h, hmax, hup]
    obtain ⟨h1, h2, h3⟩ := ih (m + 1) (ti + d * r)
    refine ⟨h1, h2, ?_⟩
    rw [h3]
    push_cast
    ring

/-- C4 (counterexample): with a negative annual rate the `interest` field of
a row is negative, so not every field of every returned row is a
non-negative real. -/
theorem C4_counterexample :
    ¬ (∀ row ∈ (computeSchedule 1 (-12) [0]).schedule,
        0 ≤ row.interest) := by
  intro hall
  have hmem : (⟨1, 1, -1, 0, 0, 1⟩ : Row) ∈
      (computeSchedule 1 (-12) [0]).schedule := by
    norm_num [computeSchedule, computeScheduleAux, plannedPayment,
      updatePayoff]
  have := hall _ hmem
  norm_num at this

/-- C4 (amended): every field of every returned row other than `interest`
is non-negative (indeed `startDebt` is strictly positive) for all inputs,
and `interest` is non-negative as well whenever `annualRate ≥ 0`. -/
theorem C4_fields_nonneg (p r : ℚ) (ps : List ℚ) :
    ∀ row ∈ (computeSchedule p r ps).schedule,
      0 < row.startDebt ∧ 0 ≤ row.paymentPlanned ∧
      0 ≤ row.paymentApplied ∧ 0 ≤ row.endDebt ∧
      (0 ≤ r → 0 ≤ row.interest) := by
  unfold computeSchedule
  intro row hrow
  obtain ⟨hpos, hplan, hint, happ, hend⟩ :=
    row_shape (r / 12) ps 1 p 0 none row hrow
  refine ⟨hpos, hplan, ?_, ?_, ?_⟩
  · rw [happ]
    exact le_min hplan (le_of_lt hpos)
  · rw [hend]
    exact le_max_right _ _
  · intro hr
    rw [hint]
    have h12 : (0:ℚ) ≤ r / 12 := by positivity
    exact mul_nonneg (le_of_lt hpos) h12

/-- Witness for C4_fields_nonneg at a concrete schedule. -/
theorem C4_fields_nonneg_witness :
    (⟨1, 100, 0, 50, 50, 50⟩ : Row) ∈
      (computeSchedule 100 0 [50, 50]).schedule ∧
    (0 < (100:ℚ) ∧ 0 ≤ (50:ℚ) ∧ 0 ≤ (50:ℚ) ∧ 0 ≤ (50:ℚ) ∧
      ((0:ℚ) ≤ 0 → 0 ≤ (0:ℚ))) := by
  have hmem : (⟨1, 100, 0, 50, 50, 50⟩ : Row) ∈
      (computeSchedule 100 0 [50, 50]).schedule := by
    norm_num [computeSchedule, computeScheduleAux, plannedPayment,
      updatePayoff]
  exact ⟨hmem, C4_fields_nonneg 100 0 [50, 50] _ hmem⟩

/-- C5: if at a simulated month the clamped payment covers the whole
outstanding debt, the payment applied is exactly `startDebt` and the
returned `payoffMonth` is that month. -/
theorem C5_payoff_month (p r : ℚ) (ps : List ℚ) (row : Row)
    (hrow : row ∈ (computeSchedule p r ps).schedule)
    (hpos : 0 < row.startDebt)
    (hpay : row.startDebt ≤ row.paymentPlanned) :
    row.paymentApplied = row.startDebt ∧
    (computeSchedule p r ps).payoffMonth = some row.month := by
  unfold computeSchedule at hrow ⊢
  obtain ⟨_, _, _, happ, hend⟩ :=
    row_shape (r / 12) ps 1 p 0 none row hrow
  have happlied : row.paymentApplied = row.startDebt := by
    rw [happ, min_eq_right hpay]
  refine ⟨happlied, ?_⟩
  apply payoffMonth_of_zero_row (r / 12) ps 1 p 0 row hrow
  rw [hend, happlied, sub_self, max_self]

/-- Witness for C5_payoff_month at a concrete schedule. -/
theorem C5_payoff_month_witness :
    (⟨1, 100, 0, 150, 100, 0⟩ : Row) ∈
      (computeSchedule 100 0 [150]).schedule ∧
    (0:ℚ) < 100 ∧ (100:ℚ) ≤ 150 ∧
    ((⟨1, 100, 0, 150, 100, 0⟩ : Row).paymentApplied =
        (⟨1, 100, 0, 150, 100, 0⟩ : Row).startDebt ∧
      (computeSchedule 100 0 [150]).payoffMonth = some 1) := by
  have hmem : (⟨1, 100, 0, 150, 100, 0⟩ : Row) ∈
      (computeSchedule 100 0 [150]).schedule := by
    norm_num [computeSchedule, computeScheduleAux, plannedPayment,
      updatePayoff]
  exact ⟨hmem, by norm_num, by norm_num,
    C5_payoff_month 100 0 [150] _ hmem (by norm_num) (by norm_num)⟩

/-- C7: an empty payments list yields an empty schedule, zero total
interest, no payoff month, and `remainingDebt = principal`. -/
theorem C7_empty_payments (p r : ℚ) :
    computeSchedule p r [] = ⟨[], 0, none, p⟩ := rfl

/-- C8: the engine is a pure deterministic function — equal inputs give
equal results (input immutability is intrinsic to the embedding: the
payments list is taken by value and never rebuilt). -/
theorem C8_deterministic (p1 p2 r1 r2 : ℚ) (ps1 ps2 : List ℚ)
    (hp : p1 = p2) (hr : r1 = r2) (hps : ps1 = ps2) :
    computeSchedule p1 r1 ps1 = computeSchedule p2 r2 ps2 := by
  rw [hp, hr, hps]

/-- Witness for C8_deterministic at a concrete input. -/
theorem C8_deterministic_witness :
    (1200:ℚ) = 1200 ∧ (12/100:ℚ) = 12/100 ∧ ([112]:List ℚ) = [112] ∧
    computeSchedule 1200 (12/100) [112] =
      computeSchedule 1200 (12/100) [112] :=
  ⟨rfl, rfl, rfl,
    C8_deterministic 1200 1200 (12/100) (12/100) [112] [112] rfl rfl rfl⟩

/-- C9: the engine is total — on every input it terminates with a result
(structural recursion over the payments list), whose schedule is at most
as long as the payments list. -/
theorem C9_total (p r : ℚ) (ps : List ℚ) :
    ∃ res : ScheduleResult, computeSchedule p r ps = res ∧
      res.schedule.length ≤ ps.length :=
  ⟨computeSchedule p r ps, rfl, length_schedule_le (r / 12) ps 1 p 0 none⟩

/-- C10: the interest rate never feeds back into the debt balance — two
runs differing only in the annual rate return the same rows up to the
`interest` field, the same `payoffMonth` and the same `remainingDebt`. -/
theorem C10_rate_independent (p r1 r2 : ℚ) (ps : List ℚ) :
    (computeSchedule p r1 ps).schedule.map eraseInterest =
      (computeSchedule p r2 ps).schedule.map eraseInterest ∧
    (computeSchedule p r1 ps).payoffMonth =
      (computeSchedule p r2 ps).payoffMonth ∧
    (computeSchedule p r1 ps).remainingDebt =
      (computeSchedule p r2 ps).remainingDebt :=
  rate_independent_aux (r1 / 12) (r2 / 12) ps 1 p 0 0 none

/-- C1: the schedule invariants — per-row clamping equations, the debt
chain (first row starts at the principal, each later row starts at the
previous row's `endDebt`), `endDebt ≤ startDebt` and `endDebt ≥ 0`, the
row count bound, and early stop once the debt reaches zero (only the last
row can have `endDebt = 0`). -/
theorem C1_schedule_invariants (p r : ℚ) (ps : List ℚ) (hp : 0 ≤ p) :
    (∀ row ∈ (computeSchedule p r ps).schedule,
        row.paymentApplied = min row.paymentPlanned row.startDebt ∧
        row.endDebt = max (row.startDebt - row.paymentApplied) 0 ∧
        row.endDebt ≤ row.startDebt ∧ 0 ≤ row.endDebt) ∧
    (∀ h0 : 0 < (computeSchedule p r ps).schedule.length,
        ((computeSchedule p r ps).schedule.get ⟨0, h0⟩).startDebt = p) ∧
    (∀ (i : Nat) (h : i + 1 < (computeSchedule p r ps).schedule.length),
        ((computeSchedule p r ps).schedule.get ⟨i + 1, h⟩).startDebt =
          ((computeSchedule p r ps).schedule.get
            ⟨i, Nat.lt_of_succ_lt h⟩).endDebt) ∧
    (computeSchedule p r ps).schedule.length ≤ ps.length ∧
    (∀ (i : Nat) (h : i + 1 < (computeSchedule p r ps).schedule.length),
        ((computeSchedule p r ps).schedule.get
          ⟨i, Nat.lt_of_succ_lt h⟩).endDebt ≠ 0) := by
  unfold computeSchedule
  have hshape := row_shape (r / 12) ps 1 p 0 none
  have hchain := chainFrom_schedule (r / 12) ps 1 p 0 none
  refine ⟨?_, ?_, ?_, ?_, ?_⟩
  · intro row hrow
    obtain ⟨hpos, hplan, _, happ, hend⟩ := hshape row hrow
    have happ0 : 0 ≤ row.paymentApplied := by
      rw [happ]
      exact le_min hplan (le_of_lt hpos)
    refine ⟨happ, hend, ?_, ?_⟩
    · rw [hend]
      exact max_le (by linarith) (le_of_lt hpos)
    · rw [hend]
      exact le_max_right _ _
  · intro h0
    exact chainFrom_head p _ hchain h0
  · intro i h
    exact chainFrom_step p _ hchain i h
  · exact length_schedule_le _ _ _ _ _ _
  · intro i h
    have hstep := chainFrom_step p _ hchain i h
    have hmem := List.get_mem
      (computeScheduleAux (r / 12) ps 1 p 0 none).schedule (i + 1) h
    have hpos := (hshape _ hmem).1
    rw [hstep] at hpos
    exact ne_of_gt hpos

/-- Witness for C1_schedule_invariants at a concrete input. -/
theorem C1_schedule_invariants_witness :
    (0:ℚ) ≤ 1200 ∧
    ((∀ row ∈ (computeSchedule 1200 (12/100) [112, 112]).schedule,
        row.paymentApplied = min row.paymentPlanned row.startDebt ∧
        row.endDebt = max (row.startDebt - row.paymentApplied) 0 ∧
        row.endDebt ≤ row.startDebt ∧ 0 ≤ row.endDebt) ∧
      (∀ h0 : 0 < (computeSchedule 1200 (12/100) [112, 112]).schedule.length,
        ((computeSchedule 1200 (12/100) [112, 112]).schedule.get
          ⟨0, h0⟩).startDebt = 1200) ∧
      (∀ (i : Nat)
          (h : i + 1 <
            (computeSchedule 1200 (12/100) [112, 112]).schedule.length),
        ((computeSchedule 1200 (12/100) [112, 112]).schedule.get
            ⟨i + 1, h⟩).startDebt =
          ((computeSchedule 1200 (12/100) [112, 112]).schedule.get
            ⟨i, Nat.lt_of_succ_lt h⟩).endDebt) ∧
      (computeSchedule 1200 (12/100) [112, 112]).schedule.length ≤
        ([112, 112] : List ℚ).length ∧
      (∀ (i : Nat)
          (h : i + 1 <
            (computeSchedule 1200 (12/100) [112, 112]).schedule.length),
        ((computeSchedule 1200 (12/100) [112, 112]).schedule.get
          ⟨i, Nat.lt_of_succ_lt h⟩).endDebt ≠ 0)) :=
  ⟨by norm_num,
    C1_schedule_invariants 1200 (12/100) [112, 112] (by norm_num)⟩

/-- C2 (counterexample): with one all-zero payment and a non-zero rate the
remaining debt stays equal to the principal — it is not the compounded
value `principal * (1 + annualRate/12)^monthCount`. -/
theorem C2_counterexample :
    (computeSchedule 1200 (12/100) (List.replicate 1 0)).remainingDebt ≠
      1200 * (1 + (12/100) / 12) ^ 1 := by
  norm_num [computeSchedule, computeScheduleAux, plannedPayment,
    updatePayoff, List.replicate]

/-- C2 (amended): with all-zero payments the interest is never
capitalized: `remainingDebt` stays equal to the principal, `payoffMonth`
is absent, and the interest accumulates additively as
`principal * (annualRate/12) * monthCount`. -/
theorem C2_zero_payments (p r : ℚ) (n : Nat) (hp : 0 ≤ p) :
    (computeSchedule p r (List.replicate n 0)).remainingDebt = p ∧
    (computeSchedule p r (List.replicate n 0)).payoffMonth = none ∧
    (computeSchedule p r (List.replicate n 0)).totalInterest =
      p * (r / 12) * n := by
  unfold computeSchedule
  rcases lt_or_eq_of_le hp with hlt | heq
  · obtain ⟨h1, h2, h3⟩ := zeros_schedule (r / 12) n 1 p 0 none hlt
    refine ⟨h1, h2, ?_⟩
    rw [h3]
    ring
  · rw [← heq,
      computeScheduleAux_stop (r / 12) (List.replicate n 0) 1 0 0 none
        (le_refl 0)]
    norm_num

/-- Witness for C2_zero_payments at a concrete input. -/
theorem C2_zero_payments_witness :
    (0:ℚ) ≤ 1200 ∧
    ((computeSchedule 1200 (12/100) (List.replicate 2 0)).remainingDebt =
        1200 ∧
      (computeSchedule 1200 (12/100) (List.replicate 2 0)).payoffMonth =
        none ∧
      (computeSchedule 1200 (12/100) (List.replicate 2 0)).totalInterest =
        1200 * ((12/100) / 12) * ((2 : Nat) : ℚ)) :=
  ⟨by norm_num, C2_zero_payments 1200 (12/100) 2 (by norm_num)⟩

/-- C3 (counterexample): in the reference scenario the first row's
`endDebt` is not 1100 — the payment is subtracted from the debt without
the month's interest being added to it. -/
theorem C3_counterexample :
    ((computeSchedule 1200 (12/100) (List.replicate 12 112)).schedule.head?.map
        Row.endDebt) ≠ some 1100 := by
  norm_num [computeSchedule, computeScheduleAux, plannedPayment,
    updatePayoff, List.replicate]

/-- C3 (amended): in the reference scenario the first row is
`startDebt = 1200`, `interest = 12`, `paymentPlanned = paymentApplied =
112`, and `endDebt = 1088` (= 1200 − 112; interest is not capitalized). -/
theorem C3_first_row :
    (computeSchedule 1200 (12/100) (List.replicate 12 112)).schedule.head? =
      some ⟨1, 1200, 12, 112, 112, 1088⟩ := by
  norm_num [computeSchedule, computeScheduleAux, plannedPayment,
    updatePayoff, List.replicate]

/-- C6: a negative payment entry is clamped to zero — the corresponding
row has `paymentPlanned = 0`, `paymentApplied = 0` and
`endDebt = startDebt`, so the debt neither grows nor shrinks there. -/
theorem C6_negative_payment (p r : ℚ) (ps : List ℚ) (i : Nat) (row : Row)
    (hrow : (computeSchedule p r ps).schedule[i]? = some row)
    (v : ℚ) (hv : ps[i]? = some v) (hneg : v < 0) :
    row.paymentPlanned = 0 ∧ row.paymentApplied = 0 ∧
    row.endDebt = row.startDebt := by
  unfold computeSchedule at hrow
  obtain ⟨w, hw, hplan⟩ :=
    row_index_payment (r / 12) ps 1 p 0 none i row hrow
  have hwv : v = w := by
    rw [hv] at hw
    exact Option.some.inj hw
  have hplan0 : row.paymentPlanned = 0 := by
    rw [hplan, ← hwv, plannedPayment_of_neg v hneg]
  have hmem : row ∈ (computeScheduleAux (r / 12) ps 1 p 0 none).schedule :=
    List.getElem?_mem hrow
  obtain ⟨hpos, _, _, happ, hend⟩ :=
    row_shape (r / 12) ps 1 p 0 none row hmem
  refine ⟨hplan0, ?_, ?_⟩
  · rw [happ, hplan0]
    exact min_eq_left (le_of_lt hpos)
  · rw [hend, happ, hplan0, min_eq_left (le_of_lt hpos), sub_zero,
      max_eq_left (le_of_lt hpos)]

/-- Witness for C6_negative_payment at a concrete input. -/
theorem C6_negative_payment_witness :
    (computeSchedule 100 0 [-5]).schedule[0]? =
      some ⟨1, 100, 0, 0, 0, 100⟩ ∧
    ([-5] : List ℚ)[0]? = some ((-5 : ℚ)) ∧ (-5:ℚ) < 0 ∧
    ((⟨1, 100, 0, 0, 0, 100⟩ : Row).paymentPlanned = 0 ∧
      (⟨1, 100, 0, 0, 0, 100⟩ : Row).paymentApplied = 0 ∧
      (⟨1, 100, 0, 0, 0, 100⟩ : Row).endDebt =
        (⟨1, 100, 0, 0, 0, 100⟩ : Row).startDebt) := by
  have hrow : (computeSchedule 100 0 [-5]).schedule[0]? =
      some ⟨1, 100, 0, 0, 0, 100⟩ := by
    norm_num [computeSchedule, computeScheduleAux, plannedPayment,
      updatePayoff]
  have hv : ([-5] : List ℚ)[0]? = some ((-5 : ℚ)) := by norm_num
  exact ⟨hrow, hv, by norm_num,
    C6_negative_payment 100 0 [-5] 0 _ hrow (-5) hv (by norm_num)⟩
